import Mathlib

/-!
Verification of the folder-tree core of `Application/file_structure_explorer.py`:
the naming-convention parser, the recursive tree builder, the sorter, the
bidirectional tree/document serializer and the label dispatcher.
All definitions are shallow embeddings of the Python source; machine-level
details of Python (string comparison by code point, truthiness of strings,
`int()` parsing, `str.split`) are modelled explicitly below.
-/

/- ### Python string primitives -/

/-- Python string comparison `a <= b`: lexicographic by Unicode code point.
This is the order used by `sorted(..., key=lambda x: x.id)` on `str` keys. -/
def pyLeChars : List Char → List Char → Bool
  | [], _ => true
  | _ :: _, [] => false
  | a :: as, b :: bs =>
    if a.toNat < b.toNat then true
    else if b.toNat < a.toNat then false
    else pyLeChars as bs

/-- Python `a <= b` on `str` values. -/
def pyStrLe (a b : String) : Bool := pyLeChars a.data b.data

/-- ASCII decimal digit test. -/
def isAsciiDigit (c : Char) : Bool := 48 ≤ c.toNat && c.toNat ≤ 57

/-- ASCII whitespace stripped by Python `int()` before parsing. -/
def isPySpace (c : Char) : Bool :=
  c = ' ' || c = '\t' || c = '\n' || c = '\r' || c = '\x0b' || c = '\x0c'

/-- Acceptance of an already-stripped character sequence by Python `int()`:
an optional sign followed by at least one decimal digit. -/
def pyIntParsableCore : List Char → Bool
  | [] => false
  | c :: rest =>
    if c = '+' || c = '-' then !rest.isEmpty && rest.all isAsciiDigit
    else (c :: rest).all isAsciiDigit

/-- Model of `int(s)` succeeding in Python (the `try: int(id)` test of the
source, line 107): strip surrounding whitespace, then an optional sign and a
nonempty run of decimal digits. -/
def pyIntParsable (s : String) : Bool :=
  pyIntParsableCore ((s.data.dropWhile isPySpace).reverse.dropWhile isPySpace).reverse

/-- Numeric value of a decimal digit string, the value `int(s)` returns on a
plain digit string. Used to state numeric (as opposed to lexicographic)
ordering of ids. -/
def pyIntValue (s : String) : Nat :=
  s.data.foldl (fun acc c => 10 * acc + (c.toNat - 48)) 0

/-- Python `s.split(sep)` on a character list for a single-character
separator: every occurrence of the separator ends a segment, and the result
is never empty (splitting the empty string gives one empty segment). -/
def splitUnderscoreChars : List Char → List (List Char)
  | [] => [[]]
  | c :: cs =>
    let r := splitUnderscoreChars cs
    if c = '_' then [] :: r
    else
      match r with
      | [] => [[c]]
      | s :: rest => (c :: s) :: rest

/-- Python `full_name.split('_')` (source line 106). -/
def pySplitUnderscore (s : String) : List String :=
  (splitUnderscoreChars s.data).map String.mk

/- ### Data model -/

/-- A node of the folder tree (class `Folder`, source lines 25-69).
The `parent` back-reference of the source is not a field here: it always
points at the node whose `subfolders` list holds this node, so the embedding
passes the parent's data explicitly where the source reads `folder.parent`. -/
inductive Folder where
  | mk (name : String) (id : String) (label_type : String) (subfolders : List Folder)

def Folder.name : Folder → String
  | .mk n _ _ _ => n

def Folder.id : Folder → String
  | .mk _ i _ _ => i

def Folder.label_type : Folder → String
  | .mk _ _ l _ => l

def Folder.subfolders : Folder → List Folder
  | .mk _ _ _ s => s

/-- The `Folder` constructor (source lines 32-39): a falsy `label_type`
(the empty string, in particular the default argument) is replaced by
`"none"`; `subfolders` starts empty. -/
def Folder.make (name id label_type : String) : Folder :=
  Folder.mk name id (if label_type = "" then "none" else label_type) []

/-- Replace the `subfolders` list of a node. Models attaching children with
`add_subfolder` (append, source lines 41-44) and the reassignment done by
`sort_subfolders` (source line 69). -/
def Folder.setSubfolders : Folder → List Folder → Folder
  | .mk n i l _, subs => .mk n i l subs

/-- The `LABEL_TYPES` enumeration of the source (line 14). -/
def LABEL_TYPES : List String :=
  ["hanging", "sticker", "outside_folder", "inside_folder", "none"]

/-- A filesystem entry as seen by the builder: a directory with a basename
and its `os.listdir` entries in listing order, or a non-directory entry
(a plain file), for which `os.path.isdir` is false. -/
inductive FSEntry where
  | dir (name : String) (entries : List FSEntry)
  | file (name : String)

/-- A document node produced by the export (source lines 138-145): a mapping
with exactly the keys `name`, `id`, `label_type`, `subfolders`. -/
inductive Doc where
  | mk (name : String) (id : String) (label_type : String) (subfolders : List Doc)

def Doc.name : Doc → String
  | .mk n _ _ _ => n

def Doc.id : Doc → String
  | .mk _ i _ _ => i

def Doc.label_type : Doc → String
  | .mk _ _ l _ => l

def Doc.subfolders : Doc → List Doc
  | .mk _ _ _ s => s

/-- A general imported document node: each of the four fields may be absent
(a mapping that lacks the key). Reading an absent field in the source raises
`KeyError`; the embedding returns `none` for the whole import in that case. -/
inductive JDoc where
  | mk (name : Option String) (id : Option String) (label_type : Option String)
      (subfolders : Option (List JDoc))

def JDoc.name : JDoc → Option String
  | .mk n _ _ _ => n

def JDoc.id : JDoc → Option String
  | .mk _ i _ _ => i

def JDoc.label_type : JDoc → Option String
  | .mk _ _ l _ => l

def JDoc.subfolders : JDoc → Option (List JDoc)
  | .mk _ _ _ s => s

mutual

/-- View of an export-produced document as a general document: every field
is present. -/
def Doc.toJDoc : Doc → JDoc
  | .mk n i l subs => .mk (some n) (some i) (some l) (some (docsToJDocs subs))

def docsToJDocs : List Doc → List JDoc
  | [] => []
  | d :: ds => d.toJDoc :: docsToJDocs ds

end

/- ### NameParser (source lines 105-115) -/

/-- Parse a raw directory basename into `(id, name)`, or `none` for the skip
signal. Translation of source lines 105-115: the segment before the first
underscore is the candidate id; if `int()` accepts it, the name is the
remaining segments rejoined with single spaces; otherwise the node is kept
with an empty id and the full raw name exactly when `ignore_non_numbered`
is false or the node is the root, and skipped in every other case. -/
def parseName (full_name : String) (ignore_non_numbered : Bool) (root : Bool) :
    Option (String × String) :=
  let segs := pySplitUnderscore full_name
  let id := segs.headD ""
  if pyIntParsable id then
    some (id, String.intercalate " " segs.tail)
  else if !ignore_non_numbered || root then
    some ("", full_name)
  else
    none

/- ### Sorter (source line 69 and line 148) -/

/-- Sort key relation used by `sort_subfolders` (source line 69):
Python `<=` on the `id` strings. -/
def folderIdLe (a b : Folder) : Prop := pyStrLe a.id b.id = true

instance : DecidableRel folderIdLe :=
  fun a b => inferInstanceAs (Decidable (pyStrLe a.id b.id = true))

/-- Sort key relation used by the export when sorting emitted documents
(source line 148): Python `<=` on the `id` entries of the documents. -/
def docIdLe (a b : Doc) : Prop := pyStrLe a.id b.id = true

instance : DecidableRel docIdLe :=
  fun a b => inferInstanceAs (Decidable (pyStrLe a.id b.id = true))

/-- Python `sorted(subfolders, key=lambda x: x.id)` (source line 69): the
stable sort of the list by the `id` strings. -/
def sortFolders (l : List Folder) : List Folder := List.insertionSort folderIdLe l

/-- Python `sorted(json_subfolders, key=lambda x: x['id'])` (source
line 148): the stable sort of the emitted documents by their `id` field. -/
def sortDocs (l : List Doc) : List Doc := List.insertionSort docIdLe l

/- ### FolderTree builder (source lines 94-123) -/

mutual

/-- Translation of `_generate_folder_tree_from_path_recursive` (source lines
99-123). A non-directory yields no node. Otherwise the basename is parsed;
a skip signal propagates as `none`; else the node is created by the `Folder`
constructor (label type defaulted, hence `"none"`), its child directories
are built recursively in listing order, children that return a node are
appended, and finally `sort_subfolders` reorders them by id. -/
def generateFolderTreeFromPathRec (e : FSEntry) (ignore_non_numbered : Bool)
    (root : Bool) : Option Folder :=
  match e with
  | .file _ => none
  | .dir full_name entries =>
    match parseName full_name ignore_non_numbered root with
    | none => none
    | some (id, name) =>
      some ((Folder.make name id "").setSubfolders
        (sortFolders (buildSubfolders entries ignore_non_numbered)))

/-- The loop of source lines 118-121: build each entry (with `root=False`),
keep the results that are truthy (a `Folder` object is always truthy, so
exactly the non-`None` results), in listing order. -/
def buildSubfolders (es : List FSEntry) (ignore_non_numbered : Bool) : List Folder :=
  match es with
  | [] => []
  | e :: rest =>
    match generateFolderTreeFromPathRec e ignore_non_numbered false with
    | some f => f :: buildSubfolders rest ignore_non_numbered
    | none => buildSubfolders rest ignore_non_numbered

end

/-- Entry point `generate_folder_tree_from_path` (source lines 94-97):
the recursion starts with `root=True`. -/
def generateFolderTreeFromPath (e : FSEntry) (ignore_non_numbered : Bool := true) :
    Option Folder :=
  generateFolderTreeFromPathRec e ignore_non_numbered true

/- ### Serializer, export direction (source lines 131-149) -/

mutual

/-- Translation of `_generate_folder_tree_json_recursive` (source lines
135-149): emit the four fields, export the children in their in-memory
order, and if `sort` is set replace the emitted list by its stable sort
by `id`. -/
def generateFolderTreeJsonRec (f : Folder) (sort : Bool) : Doc :=
  match f with
  | .mk n i l subs =>
    let ds := exportSubfolders subs sort
    Doc.mk n i l (if sort then sortDocs ds else ds)

/-- The list comprehension of source lines 142-144, in child order. -/
def exportSubfolders (fs : List Folder) (sort : Bool) : List Doc :=
  match fs with
  | [] => []
  | f :: rest => generateFolderTreeJsonRec f sort :: exportSubfolders rest sort

end

mutual

/-- State-passing translation of `_generate_folder_tree_json_recursive`
(source lines 135-149) that also returns what the visited folder is after
the call. The body reads `folder.name`, `folder.id`, `folder.label_type`
and recurses into each subfolder (each recursive call returning that
subfolder's post-call state); it contains no assignment to any attribute of
`folder`, and `sorted` builds a new list, so the folder is rebuilt from its
unchanged fields and its post-call children. -/
def generateFolderTreeJsonRecTracked (f : Folder) (sort : Bool) : Doc × Folder :=
  match f with
  | .mk n i l subs =>
    let p := exportSubfoldersTracked subs sort
    (Doc.mk n i l (if sort then sortDocs p.1 else p.1), Folder.mk n i l p.2)

/-- State-passing form of the list comprehension of source lines 142-144. -/
def exportSubfoldersTracked (fs : List Folder) (sort : Bool) :
    List Doc × List Folder :=
  match fs with
  | [] => ([], [])
  | f :: rest =>
    let q := generateFolderTreeJsonRecTracked f sort
    let p := exportSubfoldersTracked rest sort
    (q.1 :: p.1, q.2 :: p.2)

end

/- ### Serializer, import direction (source lines 87-92) -/

mutual

/-- Translation of `_generate_folder_tree_from_json_recursive` (source lines
87-92): read the four fields (`KeyError` on an absent field aborts the whole
import, modelled by `none`), construct the node through the `Folder`
constructor (which coerces a falsy label type to `"none"`), and append each
recursively imported subfolder. -/
def generateFolderTreeFromJsonRec (d : JDoc) : Option Folder :=
  match d with
  | .mk n? i? l? subs? =>
    match n? with
    | none => none
    | some n =>
      match i? with
      | none => none
      | some i =>
        match l? with
        | none => none
        | some l =>
          match subs? with
          | none => none
          | some subs =>
            match importSubfolders subs with
            | none => none
            | some children => some ((Folder.make n i l).setSubfolders children)

/-- The loop of source lines 90-91: import each subfolder document in order;
a failure anywhere aborts the whole import. -/
def importSubfolders (ds : List JDoc) : Option (List Folder) :=
  match ds with
  | [] => some []
  | d :: rest =>
    match generateFolderTreeFromJsonRec d, importSubfolders rest with
    | some f, some fs => some (f :: fs)
    | _, _ => none

end

/- ### Label dispatcher (source lines 197-212 and 218-228) -/

/-- The label buffers `label_str` (source line 175), one per member of
`LABEL_TYPES` (the `"none"` key is the field `none_buf`), together with the
sequence of messages passed to `logging.error` by the dispatcher. -/
structure LabelState where
  hanging : String
  sticker : String
  outside_folder : String
  inside_folder : String
  none_buf : String
  errors : List String

/-- The initial buffers of source line 175: every buffer empty. -/
def initialLabelState : LabelState := ⟨"", "", "", "", "", []⟩

/-- Translation of `hanging_label_to_latex` (source lines 218-222). The
source reads `folder.parent`; the embedding receives the parent's name
(`none` for a node with no parent). -/
def hanging_label_to_latex (parent : Option String) (f : Folder) : String :=
  match parent with
  | some p =>
    "\\customlabel\x7b" ++ f.id ++ "\x7d\x7b" ++ p ++ "\x7d\x7b" ++ f.name ++ "\x7d \n"
  | none =>
    "\\customlabel\x7b" ++ f.id ++ "\x7d\x7b\x7d\x7b" ++ f.name ++ "\x7d \n"

/-- Translation of `sticker_label_to_latex` (source lines 224-228); its body
is identical to `hanging_label_to_latex`, and the dispatcher in fact calls
`hanging_label_to_latex` in the sticker branch as well (source line 202). -/
def sticker_label_to_latex (parent : Option String) (f : Folder) : String :=
  match parent with
  | some p =>
    "\\customlabel\x7b" ++ f.id ++ "\x7d\x7b" ++ p ++ "\x7d\x7b" ++ f.name ++ "\x7d \n"
  | none =>
    "\\customlabel\x7b" ++ f.id ++ "\x7d\x7b\x7d\x7b" ++ f.name ++ "\x7d \n"

mutual

/-- Translation of `_generate_labels_recursively` (source lines 197-212):
branch on the label type, a case distinction by string equality in pattern
order (`hanging` and `sticker` append one line to their buffer, the three
remaining members of the enumeration do nothing, any other value logs one
error message), then traverse the children in order, for whom this node is
the parent. -/
def generateLabelsRec (parent : Option String) (f : Folder) (st : LabelState) :
    LabelState :=
  match f with
  | .mk n i l subs =>
    let st1 : LabelState :=
      if l = "hanging" then
        { st with hanging := st.hanging ++ hanging_label_to_latex parent (.mk n i l subs) }
      else if l = "sticker" then
        { st with sticker := st.sticker ++ hanging_label_to_latex parent (.mk n i l subs) }
      else if l = "outside_folder" then st
      else if l = "inside_folder" then st
      else if l = "none" then st
      else { st with errors := st.errors ++ [l ++ " is not a valid label type"] }
    generateLabelsList (some n) subs st1

/-- The loop of source lines 211-212. -/
def generateLabelsList (parent : Option String) (fs : List Folder)
    (st : LabelState) : LabelState :=
  match fs with
  | [] => st
  | f :: rest => generateLabelsList parent rest (generateLabelsRec parent f st)

end

/- ### Specification-side descriptions of the label dispatch -/

mutual

/-- Modelled from the spec: the pre-order concatenation of the lines a
subtree contributes to the `hanging` buffer (one line per node whose label
type is `hanging`, children visited in order with this node as parent). -/
def hangingLinesSpec (parent : Option String) (f : Folder) : String :=
  match f with
  | .mk n i l subs =>
    (if l = "hanging" then hanging_label_to_latex parent (.mk n i l subs) else "")
      ++ hangingLinesListSpec (some n) subs

/-- Modelled from the spec: contributions of a forest to the `hanging`
buffer, in order. -/
def hangingLinesListSpec (parent : Option String) (fs : List Folder) : String :=
  match fs with
  | [] => ""
  | f :: rest => hangingLinesSpec parent f ++ hangingLinesListSpec parent rest

end

mutual

/-- Modelled from the spec: the pre-order concatenation of the lines a
subtree contributes to the `sticker` buffer. -/
def stickerLinesSpec (parent : Option String) (f : Folder) : String :=
  match f with
  | .mk n i l subs =>
    (if l = "sticker" then hanging_label_to_latex parent (.mk n i l subs) else "")
      ++ stickerLinesListSpec (some n) subs

/-- Modelled from the spec: contributions of a forest to the `sticker`
buffer, in order. -/
def stickerLinesListSpec (parent : Option String) (fs : List Folder) : String :=
  match fs with
  | [] => ""
  | f :: rest => stickerLinesSpec parent f ++ stickerLinesListSpec parent rest

end

mutual

/-- Modelled from the spec: the pre-order sequence of validation-error
messages a subtree makes the dispatcher log (one per node whose label type
is outside the enumeration). -/
def errorMsgsSpec (parent : Option String) (f : Folder) : List String :=
  match f with
  | .mk n i l subs =>
    (if l ∈ LABEL_TYPES then [] else [l ++ " is not a valid label type"])
      ++ errorMsgsListSpec (some n) subs

/-- Modelled from the spec: validation-error messages of a forest, in
order. -/
def errorMsgsListSpec (parent : Option String) (fs : List Folder) : List String :=
  match fs with
  | [] => []
  | f :: rest => errorMsgsSpec parent f ++ errorMsgsListSpec parent rest

end

/- ### Invariant predicates -/

/-- Every node of the tree has a non-empty `label_type`. The `Folder`
constructor establishes this for every node it returns, so every tree the
program builds satisfies it. -/
inductive LabelsNonEmpty : Folder → Prop
  | mk (n i l : String) (subs : List Folder) :
      l ≠ "" → (∀ c ∈ subs, LabelsNonEmpty c) → LabelsNonEmpty (.mk n i l subs)

/-- Every node of the tree has its children in non-decreasing lexicographic
(code-point) order of their `id` strings. -/
inductive ChildrenIdSorted : Folder → Prop
  | mk (n i l : String) (subs : List Folder) :
      List.Pairwise folderIdLe subs → (∀ c ∈ subs, ChildrenIdSorted c) →
      ChildrenIdSorted (.mk n i l subs)

/-- Every node of the document has its `subfolders` in non-decreasing
lexicographic (code-point) order of their `id` fields. -/
inductive DocChildrenIdSorted : Doc → Prop
  | mk (n i l : String) (subs : List Doc) :
      List.Pairwise docIdLe subs → (∀ c ∈ subs, DocChildrenIdSorted c) →
      DocChildrenIdSorted (.mk n i l subs)

/-- Some node of the document is missing one of the four required fields. -/
inductive HasMissingField : JDoc → Prop
  | name (i l : Option String) (s : Option (List JDoc)) :
      HasMissingField (.mk none i l s)
  | id (n l : Option String) (s : Option (List JDoc)) :
      HasMissingField (.mk n none l s)
  | label_type (n i : Option String) (s : Option (List JDoc)) :
      HasMissingField (.mk n i none s)
  | subfolders (n i l : Option String) :
      HasMissingField (.mk n i l none)
  | child (n i l : Option String) (subs : List JDoc) (d : JDoc) :
      d ∈ subs → HasMissingField d → HasMissingField (.mk n i l (some subs))

/-- The second tree is the first with the label type of exactly one node,
invalid (outside the enumeration) in the first tree, replaced by `"none"`;
everything else agrees. -/
inductive OneInvalidLabelReplaced : Folder → Folder → Prop
  | here (n i l : String) (subs : List Folder) :
      l ∉ LABEL_TYPES → OneInvalidLabelReplaced (.mk n i l subs) (.mk n i "none" subs)
  | there (n i l : String) (pre post : List Folder) (c c' : Folder) :
      OneInvalidLabelReplaced c c' →
      OneInvalidLabelReplaced (.mk n i l (pre ++ c :: post)) (.mk n i l (pre ++ c' :: post))

/- ### Order lemmas for the sort key -/

theorem pyLeChars_total : ∀ a b : List Char, pyLeChars a b = true ∨ pyLeChars b a = true := by
  intro a
  induction a with
  | nil => intro b; left; rfl
  | cons x xs ih =>
    intro b
    cases b with
    | nil => right; rfl
    | cons y ys =>
      simp only [pyLeChars]
      rcases Nat.lt_trichotomy x.toNat y.toNat with h | h | h
      · left; simp [h]
      · have h1 : ¬ x.toNat < y.toNat := by omega
        have h2 : ¬ y.toNat < x.toNat := by omega
        simpa [h1, h2] using ih ys
      · right; simp [h]

theorem pyLeChars_trans : ∀ a b c : List Char,
    pyLeChars a b = true → pyLeChars b c = true → pyLeChars a c = true := by
  intro a
  induction a with
  | nil => intro b c _ _; rfl
  | cons x xs ih =>
    intro b c hab hbc
    cases b with
    | nil => simp [pyLeChars] at hab
    | cons y ys =>
      cases c with
      | nil => simp [pyLeChars] at hbc
      | cons z zs =>
        simp only [pyLeChars] at hab hbc ⊢
        have hxy : ¬ y.toNat < x.toNat := by
          by_contra hy
          simp [if_neg (by omega : ¬ x.toNat < y.toNat), hy] at hab
        have hyz : ¬ z.toNat < y.toNat := by
          by_contra hz
          simp [if_neg (by omega : ¬ y.toNat < z.toNat), hz] at hbc
        by_cases hxz : x.toNat < z.toNat
        · simp [hxz]
        · have hzx : ¬ z.toNat < x.toNat := by omega
          have hexy : ¬ x.toNat < y.toNat := by omega
          have heyz : ¬ y.toNat < z.toNat := by omega
          simp only [if_neg hexy, if_neg hxy] at hab
          simp only [if_neg heyz, if_neg hyz] at hbc
          simp only [if_neg hxz, if_neg hzx]
          exact ih ys zs hab hbc

theorem pyStrLe_total (a b : String) : pyStrLe a b = true ∨ pyStrLe b a = true :=
  pyLeChars_total a.data b.data

theorem pyStrLe_trans {a b c : String} (h1 : pyStrLe a b = true)
    (h2 : pyStrLe b c = true) : pyStrLe a c = true :=
  pyLeChars_trans a.data b.data c.data h1 h2

instance : IsTotal Folder folderIdLe :=
  ⟨fun a b => pyStrLe_total a.id b.id⟩

instance : IsTrans Folder folderIdLe :=
  ⟨fun _ _ _ h1 h2 => pyStrLe_trans h1 h2⟩

instance : IsTotal Doc docIdLe :=
  ⟨fun a b => pyStrLe_total a.id b.id⟩

instance : IsTrans Doc docIdLe :=
  ⟨fun _ _ _ h1 h2 => pyStrLe_trans h1 h2⟩

theorem sortFolders_pairwise (l : List Folder) :
    List.Pairwise folderIdLe (sortFolders l) :=
  List.sorted_insertionSort folderIdLe l

theorem sortDocs_pairwise (l : List Doc) :
    List.Pairwise docIdLe (sortDocs l) :=
  List.sorted_insertionSort docIdLe l

theorem mem_sortFolders {f : Folder} {l : List Folder} :
    f ∈ sortFolders l ↔ f ∈ l :=
  List.mem_insertionSort folderIdLe

theorem mem_sortDocs {d : Doc} {l : List Doc} :
    d ∈ sortDocs l ↔ d ∈ l :=
  List.mem_insertionSort docIdLe

/- ### Decomposition of the label dispatch -/

mutual

/-- The dispatcher only ever appends: running it from any starting buffers
appends exactly the pre-order per-kind contributions of the subtree to the
`hanging` and `sticker` buffers and the validation errors to the log, and
touches nothing else. -/
theorem generateLabelsRec_decomp (parent : Option String) (f : Folder)
    (st : LabelState) :
    generateLabelsRec parent f st =
      ⟨st.hanging ++ hangingLinesSpec parent f,
       st.sticker ++ stickerLinesSpec parent f,
       st.outside_folder, st.inside_folder, st.none_buf,
       st.errors ++ errorMsgsSpec parent f⟩ := by
  cases f with
  | mk n i l subs =>
    cases st with
    | mk h s o ins nb er =>
      rw [generateLabelsRec]
      rw [generateLabelsList_decomp (some n) subs]
      simp only [hangingLinesSpec, stickerLinesSpec, errorMsgsSpec]
      by_cases h1 : l = "hanging"
      · subst h1; simp [LABEL_TYPES, String.append_assoc]
      · by_cases h2 : l = "sticker"
        · subst h2; simp [LABEL_TYPES, String.append_assoc]
        · by_cases h3 : l = "outside_folder"
          · subst h3; simp [LABEL_TYPES, String.append_assoc]
          · by_cases h4 : l = "inside_folder"
            · subst h4; simp [LABEL_TYPES, String.append_assoc]
            · by_cases h5 : l = "none"
              · subst h5; simp [LABEL_TYPES, String.append_assoc]
              · simp [LABEL_TYPES, h1, h2, h3, h4, h5, String.append_assoc,
                  List.append_assoc]

/-- Forest version of `generateLabelsRec_decomp`. -/
theorem generateLabelsList_decomp (parent : Option String) (fs : List Folder)
    (st : LabelState) :
    generateLabelsList parent fs st =
      ⟨st.hanging ++ hangingLinesListSpec parent fs,
       st.sticker ++ stickerLinesListSpec parent fs,
       st.outside_folder, st.inside_folder, st.none_buf,
       st.errors ++ errorMsgsListSpec parent fs⟩ := by
  cases fs with
  | nil =>
    cases st with
    | mk h s o ins nb er =>
      simp [generateLabelsList, hangingLinesListSpec, stickerLinesListSpec,
        errorMsgsListSpec]
  | cons f rest =>
    rw [generateLabelsList, generateLabelsRec_decomp parent f st,
      generateLabelsList_decomp parent rest]
    simp [hangingLinesListSpec, stickerLinesListSpec, errorMsgsListSpec,
      String.append_assoc, List.append_assoc]

end

theorem hangingLinesListSpec_append (parent : Option String) (xs ys : List Folder) :
    hangingLinesListSpec parent (xs ++ ys) =
      hangingLinesListSpec parent xs ++ hangingLinesListSpec parent ys := by
  induction xs with
  | nil => simp [hangingLinesListSpec]
  | cons x xs ih => simp [hangingLinesListSpec, ih, String.append_assoc]

theorem stickerLinesListSpec_append (parent : Option String) (xs ys : List Folder) :
    stickerLinesListSpec parent (xs ++ ys) =
      stickerLinesListSpec parent xs ++ stickerLinesListSpec parent ys := by
  induction xs with
  | nil => simp [stickerLinesListSpec]
  | cons x xs ih => simp [stickerLinesListSpec, ih, String.append_assoc]

theorem errorMsgsListSpec_append (parent : Option String) (xs ys : List Folder) :
    errorMsgsListSpec parent (xs ++ ys) =
      errorMsgsListSpec parent xs ++ errorMsgsListSpec parent ys := by
  induction xs with
  | nil => simp [errorMsgsListSpec]
  | cons x xs ih => simp [errorMsgsListSpec, ih]

/- ### Invariant propagation lemmas -/

mutual

/-- Every tree the filesystem builder returns has a non-empty label type at
every node (the constructor coerces the default to `"none"`). -/
theorem build_labelsNonEmpty (e : FSEntry) (ign root : Bool) (f : Folder)
    (h : generateFolderTreeFromPathRec e ign root = some f) : LabelsNonEmpty f := by
  cases e with
  | file nm => simp [generateFolderTreeFromPathRec] at h
  | dir nm entries =>
    rw [generateFolderTreeFromPathRec] at h
    cases hp : parseName nm ign root with
    | none => rw [hp] at h; simp at h
    | some p =>
      rw [hp] at h
      simp only [Option.some.injEq] at h
      subst h
      cases p with
      | mk pid pname =>
        refine LabelsNonEmpty.mk _ _ _ _ (by simp [Folder.make]) ?_
        intro c hc
        have hmem : c ∈ buildSubfolders entries ign :=
          mem_sortFolders.mp (by simpa [Folder.make, Folder.setSubfolders] using hc)
        exact buildList_labelsNonEmpty entries ign c hmem

/-- Forest version of `build_labelsNonEmpty`. -/
theorem buildList_labelsNonEmpty (es : List FSEntry) (ign : Bool) (c : Folder)
    (h : c ∈ buildSubfolders es ign) : LabelsNonEmpty c := by
  cases es with
  | nil => simp [buildSubfolders] at h
  | cons e rest =>
    rw [buildSubfolders] at h
    cases he : generateFolderTreeFromPathRec e ign false with
    | none =>
      rw [he] at h
      exact buildList_labelsNonEmpty rest ign c h
    | some f =>
      rw [he] at h
      cases h with
      | head => exact build_labelsNonEmpty e ign false c he
      | tail _ hmem => exact buildList_labelsNonEmpty rest ign c hmem

end

mutual

/-- Every tree the importer returns has a non-empty label type at every node
(the constructor coerces a falsy label type to `"none"`). -/
theorem import_labelsNonEmpty (d : JDoc) (f : Folder)
    (h : generateFolderTreeFromJsonRec d = some f) : LabelsNonEmpty f := by
  cases d with
  | mk n? i? l? subs? =>
    rw [generateFolderTreeFromJsonRec.eq_def] at h
    cases n? with
    | none => simp at h
    | some n =>
      cases i? with
      | none => simp at h
      | some i =>
        cases l? with
        | none => simp at h
        | some l =>
          cases subs? with
          | none => simp at h
          | some subs =>
            dsimp only at h
            cases hs : importSubfolders subs with
            | none =>
              rw [hs] at h
              simp at h
            | some children =>
              rw [hs] at h
              simp only [Option.some.injEq] at h
              subst h
              refine LabelsNonEmpty.mk _ _ _ _ ?_ ?_
              · by_cases hl : l = "" <;> simp [Folder.make, Folder.setSubfolders, hl]
              · intro c hc
                have : c ∈ children := by
                  simpa [Folder.make, Folder.setSubfolders] using hc
                exact importList_labelsNonEmpty subs children hs c this

/-- Forest version of `import_labelsNonEmpty`. -/
theorem importList_labelsNonEmpty (ds : List JDoc) (children : List Folder)
    (h : importSubfolders ds = some children) (c : Folder) (hc : c ∈ children) :
    LabelsNonEmpty c := by
  cases ds with
  | nil =>
    rw [importSubfolders] at h
    simp only [Option.some.injEq] at h
    subst h
    simp at hc
  | cons d rest =>
    rw [importSubfolders] at h
    cases hd : generateFolderTreeFromJsonRec d with
    | none => rw [hd] at h; simp at h
    | some f =>
      cases hr : importSubfolders rest with
      | none => rw [hd, hr] at h; simp at h
      | some fs =>
        rw [hd, hr] at h
        simp only [Option.some.injEq] at h
        subst h
        rcases List.mem_cons.mp hc with rfl | hmem
        · exact import_labelsNonEmpty d c hd
        · exact importList_labelsNonEmpty rest fs hr c hmem

end

mutual

/-- Every tree the filesystem builder returns has, at every node, children
in non-decreasing lexicographic order of their `id` strings. -/
theorem build_childrenIdSorted (e : FSEntry) (ign root : Bool) (f : Folder)
    (h : generateFolderTreeFromPathRec e ign root = some f) : ChildrenIdSorted f := by
  cases e with
  | file nm => simp [generateFolderTreeFromPathRec] at h
  | dir nm entries =>
    rw [generateFolderTreeFromPathRec] at h
    cases hp : parseName nm ign root with
    | none => rw [hp] at h; simp at h
    | some p =>
      rw [hp] at h
      simp only [Option.some.injEq] at h
      subst h
      cases p with
      | mk pid pname =>
        refine ChildrenIdSorted.mk _ _ _ _ ?_ ?_
        · simpa [Folder.make, Folder.setSubfolders] using
            sortFolders_pairwise (buildSubfolders entries ign)
        · intro c hc
          have hmem : c ∈ buildSubfolders entries ign :=
            mem_sortFolders.mp (by simpa [Folder.make, Folder.setSubfolders] using hc)
          exact buildList_childrenIdSorted entries ign c hmem

/-- Forest version of `build_childrenIdSorted`. -/
theorem buildList_childrenIdSorted (es : List FSEntry) (ign : Bool) (c : Folder)
    (h : c ∈ buildSubfolders es ign) : ChildrenIdSorted c := by
  cases es with
  | nil => simp [buildSubfolders] at h
  | cons e rest =>
    rw [buildSubfolders] at h
    cases he : generateFolderTreeFromPathRec e ign false with
    | none =>
      rw [he] at h
      exact buildList_childrenIdSorted rest ign c h
    | some f =>
      rw [he] at h
      rcases List.mem_cons.mp h with rfl | hmem
      · exact build_childrenIdSorted e ign false c he
      · exact buildList_childrenIdSorted rest ign c hmem

end

mutual

/-- Every document the sort-enabled export emits has, at every node, its
`subfolders` in non-decreasing lexicographic order of their `id` fields. -/
theorem export_docChildrenIdSorted (f : Folder) :
    DocChildrenIdSorted (generateFolderTreeJsonRec f true) := by
  cases f with
  | mk n i l subs =>
    rw [generateFolderTreeJsonRec]
    refine DocChildrenIdSorted.mk _ _ _ _ ?_ ?_
    · simpa using sortDocs_pairwise (exportSubfolders subs true)
    · intro c hc
      have hmem : c ∈ exportSubfolders subs true := mem_sortDocs.mp (by simpa using hc)
      exact exportList_docChildrenIdSorted subs c hmem

/-- Forest version of `export_docChildrenIdSorted`. -/
theorem exportList_docChildrenIdSorted (fs : List Folder) (c : Doc)
    (h : c ∈ exportSubfolders fs true) : DocChildrenIdSorted c := by
  cases fs with
  | nil => simp [exportSubfolders] at h
  | cons f rest =>
    rw [exportSubfolders] at h
    rcases List.mem_cons.mp h with rfl | hmem
    · exact export_docChildrenIdSorted f
    · exact exportList_docChildrenIdSorted rest c hmem

end

mutual

/-- Round trip: importing the unsorted export of a tree whose label types
are all non-empty reproduces the tree exactly. -/
theorem roundtrip_tree (f : Folder) (h : LabelsNonEmpty f) :
    generateFolderTreeFromJsonRec (Doc.toJDoc (generateFolderTreeJsonRec f false)) =
      some f := by
  cases f with
  | mk n i l subs =>
    cases h with
    | mk _ _ _ _ hl hsubs =>
      rw [generateFolderTreeJsonRec]
      simp only [Bool.false_eq_true, if_false]
      rw [Doc.toJDoc]
      rw [generateFolderTreeFromJsonRec]
      rw [roundtrip_forest subs hsubs]
      simp [Folder.make, Folder.setSubfolders, hl]

/-- Forest version of `roundtrip_tree`. -/
theorem roundtrip_forest (fs : List Folder) (h : ∀ c ∈ fs, LabelsNonEmpty c) :
    importSubfolders (docsToJDocs (exportSubfolders fs false)) = some fs := by
  cases fs with
  | nil => rw [exportSubfolders, docsToJDocs, importSubfolders]
  | cons f rest =>
    rw [exportSubfolders, docsToJDocs, importSubfolders]
    rw [roundtrip_tree f (h f (by simp))]
    rw [roundtrip_forest rest (fun c hc => h c (List.mem_cons_of_mem f hc))]

end

/- ### Missing-field propagation -/

theorem importSubfolders_none_of_mem (ds : List JDoc) (d : JDoc) (hd : d ∈ ds)
    (h : generateFolderTreeFromJsonRec d = none) : importSubfolders ds = none := by
  induction ds with
  | nil => simp at hd
  | cons e rest ih =>
    rw [importSubfolders]
    rcases List.mem_cons.mp hd with rfl | hmem
    · rw [h]
    · rw [ih hmem]
      cases generateFolderTreeFromJsonRec e <;> rfl

theorem import_none_of_missing (d : JDoc) (h : HasMissingField d) :
    generateFolderTreeFromJsonRec d = none := by
  induction h with
  | name i l s => rfl
  | id n l s => cases n <;> rfl
  | label_type n i s => cases n <;> cases i <;> rfl
  | subfolders n i l => cases n <;> cases i <;> cases l <;> rfl
  | child n i l subs dd hdd _ ih =>
    have hnone := importSubfolders_none_of_mem subs dd hdd ih
    cases n with
    | none => rfl
    | some nv =>
      cases i with
      | none => rfl
      | some iv =>
        cases l with
        | none => rfl
        | some lv =>
          rw [generateFolderTreeFromJsonRec.eq_def]
          dsimp only
          rw [hnone]

/- ### The tracked export returns the folder unchanged -/

mutual

/-- The state-passing export computes the same document as the plain export
and returns the folder it was given, unchanged. -/
theorem tracked_export_eq (f : Folder) (sort : Bool) :
    generateFolderTreeJsonRecTracked f sort = (generateFolderTreeJsonRec f sort, f) := by
  cases f with
  | mk n i l subs =>
    rw [generateFolderTreeJsonRecTracked, generateFolderTreeJsonRec,
      trackedList_export_eq subs sort]

/-- Forest version of `tracked_export_eq`. -/
theorem trackedList_export_eq (fs : List Folder) (sort : Bool) :
    exportSubfoldersTracked fs sort = (exportSubfolders fs sort, fs) := by
  cases fs with
  | nil => rw [exportSubfoldersTracked, exportSubfolders]
  | cons f rest =>
    rw [exportSubfoldersTracked, exportSubfolders, tracked_export_eq f sort,
      trackedList_export_eq rest sort]

end

/- ### Effect of one invalid label on the spec-side contributions -/

theorem hanging_label_ignores_subfolders (parent : Option String)
    (n i l : String) (s1 s2 : List Folder) :
    hanging_label_to_latex parent (.mk n i l s1) =
      hanging_label_to_latex parent (.mk n i l s2) := by
  cases parent <;> rfl

theorem oneInvalid_specs {f g : Folder} (h : OneInvalidLabelReplaced f g) :
    ∀ parent : Option String,
      hangingLinesSpec parent f = hangingLinesSpec parent g ∧
      stickerLinesSpec parent f = stickerLinesSpec parent g ∧
      (errorMsgsSpec parent f).length = (errorMsgsSpec parent g).length + 1 := by
  induction h with
  | here n i l subs hl =>
    intro parent
    have h1 : l ≠ "hanging" := by
      intro hx; exact hl (by rw [hx]; simp [LABEL_TYPES])
    have h2 : l ≠ "sticker" := by
      intro hx; exact hl (by rw [hx]; simp [LABEL_TYPES])
    refine ⟨?_, ?_, ?_⟩
    · rw [hangingLinesSpec, hangingLinesSpec]
      simp [h1]
    · rw [stickerLinesSpec, stickerLinesSpec]
      simp [h2]
    · rw [errorMsgsSpec, errorMsgsSpec]
      rw [if_neg hl, if_pos (by simp [LABEL_TYPES] : "none" ∈ LABEL_TYPES)]
      simp
  | there n i l pre post c c' _ ih =>
    intro parent
    refine ⟨?_, ?_, ?_⟩
    · rw [hangingLinesSpec, hangingLinesSpec]
      rw [hangingLinesListSpec_append, hangingLinesListSpec_append]
      rw [hangingLinesListSpec, hangingLinesListSpec]
      rw [(ih (some n)).1]
      rw [hanging_label_ignores_subfolders parent n i l (pre ++ c :: post)
        (pre ++ c' :: post)]
    · rw [stickerLinesSpec, stickerLinesSpec]
      rw [stickerLinesListSpec_append, stickerLinesListSpec_append]
      rw [stickerLinesListSpec, stickerLinesListSpec]
      rw [(ih (some n)).2.1]
      rw [hanging_label_ignores_subfolders parent n i l (pre ++ c :: post)
        (pre ++ c' :: post)]
    · rw [errorMsgsSpec, errorMsgsSpec]
      rw [errorMsgsListSpec_append, errorMsgsListSpec_append]
      rw [errorMsgsListSpec, errorMsgsListSpec]
      have := (ih (some n)).2.2
      simp only [List.length_append]
      omega

/- ### Claim theorems -/

/-- Claim C1, as stated, is false: the build sorts children by the Python
string order of their ids, not by numeric value. Building from a directory
`0_X` containing `2_A` and `10_B` yields children with ids `["10", "2"]`
(and the sort-enabled export of the corresponding tree emits the same
order), whose numeric values 10, 2 are not in non-decreasing order. -/
theorem claim_C1_counterexample :
    (generateFolderTreeFromPathRec (.dir "0_X" [.dir "2_A" [], .dir "10_B" []])
        true true).map (fun f => f.subfolders.map Folder.id) = some ["10", "2"] ∧
    (generateFolderTreeJsonRec
        (.mk "X" "0" "none" [.mk "A" "2" "none" [], .mk "B" "10" "none" []])
        true).subfolders.map Doc.id = ["10", "2"] ∧
    ¬ List.Chain' (fun a b => pyIntValue a ≤ pyIntValue b) ["10", "2"] := by
  refine ⟨rfl, rfl, ?_⟩
  intro h
  have h1 := (List.chain'_cons.mp h).1
  revert h1
  decide

/-- Claim C1 amended: for every tree produced by a filesystem build and for
every document produced by a sort-enabled export, every node's children
appear in non-decreasing lexicographic (code-point) order of their id
strings — Python string order, under which `"10"` precedes `"2"` — not in
numeric order. -/
theorem claim_C1_amended :
    (∀ (e : FSEntry) (ign root : Bool) (f : Folder),
        generateFolderTreeFromPathRec e ign root = some f → ChildrenIdSorted f) ∧
    (∀ f : Folder, DocChildrenIdSorted (generateFolderTreeJsonRec f true)) :=
  ⟨build_childrenIdSorted, fun f => export_docChildrenIdSorted f⟩

/-- Witness for `claim_C1_amended` at a concrete build. -/
theorem claim_C1_amended_witness :
    ChildrenIdSorted
      (.mk "X" "0" "none" [.mk "B" "10" "none" [], .mk "A" "2" "none" []]) :=
  claim_C1_amended.1 (.dir "0_X" [.dir "2_A" [], .dir "10_B" []]) true true
    (.mk "X" "0" "none" [.mk "B" "10" "none" [], .mk "A" "2" "none" []]) rfl

/-- Claim C2: every tree built from the filesystem or imported from a
document has a non-empty label type at every node (the constructor
guarantees it, so this holds of every in-memory tree the program creates),
and importing the unsorted export of any such tree reproduces it exactly,
with the same name, id and label type at every node and the children in the
same order (structural equality of the trees). -/
theorem claim_C2_roundtrip :
    (∀ (e : FSEntry) (ign root : Bool) (f : Folder),
        generateFolderTreeFromPathRec e ign root = some f → LabelsNonEmpty f) ∧
    (∀ (d : JDoc) (f : Folder),
        generateFolderTreeFromJsonRec d = some f → LabelsNonEmpty f) ∧
    (∀ f : Folder, LabelsNonEmpty f →
        generateFolderTreeFromJsonRec
          (Doc.toJDoc (generateFolderTreeJsonRec f false)) = some f) :=
  ⟨build_labelsNonEmpty, import_labelsNonEmpty, roundtrip_tree⟩

/-- Witness for `claim_C2_roundtrip` at a concrete two-node tree. -/
theorem claim_C2_roundtrip_witness :
    generateFolderTreeFromJsonRec
      (Doc.toJDoc (generateFolderTreeJsonRec
        (.mk "Documents" "0" "none" [.mk "Work" "1" "hanging" []]) false)) =
      some (.mk "Documents" "0" "none" [.mk "Work" "1" "hanging" []]) :=
  claim_C2_roundtrip.2.2 (.mk "Documents" "0" "none" [.mk "Work" "1" "hanging" []])
    (LabelsNonEmpty.mk _ _ _ _ (by decide) (by
      intro c hc
      simp only [List.mem_singleton] at hc
      subst hc
      exact LabelsNonEmpty.mk _ _ _ _ (by decide) (by intro c hc; simp at hc)))

/-- Claim C3, as stated, is false at the root id: for the directory
`0_Documents`, the leading segment `0` parses as an integer, so the root
gets id `"0"`, not the empty string. -/
theorem claim_C3_counterexample :
    (generateFolderTreeFromPath
        (.dir "0_Documents" [.dir "1_Work" [.dir "12_Projects" []],
          .dir "2_Personal" [.dir "24_Vacation" []]]) true).map Folder.id =
      some "0" ∧ ("0" : String) ≠ "" := by
  exact ⟨rfl, by decide⟩

/-- Claim C3 amended: building from `0_Documents` (containing `1_Work` with
`12_Projects`, and `2_Personal` with `24_Vacation`) yields a root with id
`"0"` (not the empty string) and name `"Documents"`, children ordered
`[Work(id 1), Personal(id 2)]`, each with its single child. -/
theorem claim_C3_amended :
    generateFolderTreeFromPath
      (.dir "0_Documents" [.dir "1_Work" [.dir "12_Projects" []],
        .dir "2_Personal" [.dir "24_Vacation" []]]) true =
    some (.mk "Documents" "0" "none"
      [.mk "Work" "1" "none" [.mk "Projects" "12" "none" []],
       .mk "Personal" "2" "none" [.mk "Vacation" "24" "none" []]]) := rfl

/-- Claim C4: `"12_Projects"` parses to id `"12"` and name `"Projects"`
regardless of flags; `"Documents"` is a skip for a non-root node under the
default flag, and the skip excludes the node and its whole subtree from the
parent's children; `"Documents"` at the root yields id `""` and the full
raw string as name; and in general a parsable leading segment is kept as
the original digit string with the remaining segments rejoined by single
spaces. -/
theorem claim_C4_name_parsing :
    (∀ ign root : Bool, parseName "12_Projects" ign root = some ("12", "Projects")) ∧
    (parseName "Documents" true false = none) ∧
    (∀ ign : Bool, parseName "Documents" ign true = some ("", "Documents")) ∧
    (∀ entries : List FSEntry,
        generateFolderTreeFromPathRec (.dir "Documents" entries) true false = none) ∧
    (∀ es rest : List FSEntry,
        buildSubfolders (.dir "Documents" es :: rest) true = buildSubfolders rest true) ∧
    (∀ (s : String) (ign root : Bool),
        pyIntParsable ((pySplitUnderscore s).headD "") = true →
        parseName s ign root =
          some ((pySplitUnderscore s).headD "",
            String.intercalate " " (pySplitUnderscore s).tail)) := by
  refine ⟨fun ign root => rfl, rfl, ?_, fun entries => rfl, fun es rest => rfl, ?_⟩
  · intro ign; cases ign <;> rfl
  · intro s ign root h
    have h2 : pyIntParsable ((pySplitUnderscore s).head?.getD "") = true := by
      simpa using h
    simp [parseName, h2]

/-- Witness for `claim_C4_name_parsing` at `"12_Projects"`. -/
theorem claim_C4_name_parsing_witness :
    pyIntParsable ((pySplitUnderscore "12_Projects").headD "") = true ∧
    parseName "12_Projects" false false =
      some ((pySplitUnderscore "12_Projects").headD "",
        String.intercalate " " (pySplitUnderscore "12_Projects").tail) :=
  ⟨rfl, claim_C4_name_parsing.2.2.2.2.2 "12_Projects" false false rfl⟩

/-- Claim C5: importing a document in which some node is missing any of the
four required fields fails the whole import (no default value is ever
substituted for a missing field). -/
theorem claim_C5_schema_error :
    ∀ d : JDoc, HasMissingField d → generateFolderTreeFromJsonRec d = none :=
  import_none_of_missing

/-- Witness for `claim_C5_schema_error`: a document whose single child is
missing its `subfolders` field fails the import. -/
theorem claim_C5_schema_error_witness :
    generateFolderTreeFromJsonRec
      (.mk (some "Documents") (some "0") (some "none")
        (some [.mk (some "Work") (some "1") (some "none") none])) = none :=
  claim_C5_schema_error _
    (HasMissingField.child (some "Documents") (some "0") (some "none")
      [.mk (some "Work") (some "1") (some "none") none]
      (.mk (some "Work") (some "1") (some "none") none)
      (by simp) (HasMissingField.subfolders _ _ _))

/-- Claim C6: for a tree with one node whose label type is outside the
enumeration, label dispatch does not abort — it still traverses that node's
children — and the buffers it produces are identical, from any starting
state, to those produced for the same tree with that node's label type set
to `"none"`, except for exactly one additional logged validation error. -/
theorem claim_C6_fault_isolation :
    ∀ f g : Folder, OneInvalidLabelReplaced f g →
    ∀ (parent : Option String) (st : LabelState),
      (generateLabelsRec parent f st).hanging = (generateLabelsRec parent g st).hanging ∧
      (generateLabelsRec parent f st).sticker = (generateLabelsRec parent g st).sticker ∧
      (generateLabelsRec parent f st).outside_folder =
        (generateLabelsRec parent g st).outside_folder ∧
      (generateLabelsRec parent f st).inside_folder =
        (generateLabelsRec parent g st).inside_folder ∧
      (generateLabelsRec parent f st).none_buf = (generateLabelsRec parent g st).none_buf ∧
      (generateLabelsRec parent f st).errors.length =
        (generateLabelsRec parent g st).errors.length + 1 := by
  intro f g h parent st
  rw [generateLabelsRec_decomp parent f st, generateLabelsRec_decomp parent g st]
  obtain ⟨h1, h2, h3⟩ := oneInvalid_specs h parent
  refine ⟨by rw [h1], by rw [h2], rfl, rfl, rfl, ?_⟩
  simp only [List.length_append]
  omega

/-- Witness for `claim_C6_fault_isolation`: one root node with the invalid
label type `"bogus"` against the same node with `"none"`. -/
theorem claim_C6_fault_isolation_witness :
    (generateLabelsRec none (.mk "Documents" "0" "bogus" []) initialLabelState).hanging =
      (generateLabelsRec none (.mk "Documents" "0" "none" []) initialLabelState).hanging ∧
    (generateLabelsRec none (.mk "Documents" "0" "bogus" []) initialLabelState).errors.length =
      (generateLabelsRec none (.mk "Documents" "0" "none" []) initialLabelState).errors.length
        + 1 := by
  have h := claim_C6_fault_isolation (.mk "Documents" "0" "bogus" [])
    (.mk "Documents" "0" "none" [])
    (OneInvalidLabelReplaced.here "Documents" "0" "bogus" [] (by decide))
    none initialLabelState
  exact ⟨h.1, h.2.2.2.2.2⟩

/-- Claim C7: the dispatcher only appends to the `hanging` and `sticker`
buffers and the error log, in pre-order; a `hanging` node contributes
exactly its one formatted line to the `hanging` buffer and nothing to the
`sticker` buffer or the error log, and symmetrically for `sticker`; the
line is the three-argument macro call carrying the id, the parent's name —
empty exactly when the node has no parent — and the name; and the kinds
`outside_folder`, `inside_folder` and `none` contribute nothing and raise
no error. -/
theorem claim_C7_label_dispatch :
    (∀ (parent : Option String) (f : Folder) (st : LabelState),
        generateLabelsRec parent f st =
          ⟨st.hanging ++ hangingLinesSpec parent f,
           st.sticker ++ stickerLinesSpec parent f,
           st.outside_folder, st.inside_folder, st.none_buf,
           st.errors ++ errorMsgsSpec parent f⟩) ∧
    (∀ (parent : Option String) (n i : String) (subs : List Folder),
        hangingLinesSpec parent (.mk n i "hanging" subs) =
          hanging_label_to_latex parent (.mk n i "hanging" subs) ++
            hangingLinesListSpec (some n) subs ∧
        stickerLinesSpec parent (.mk n i "hanging" subs) =
          stickerLinesListSpec (some n) subs ∧
        errorMsgsSpec parent (.mk n i "hanging" subs) =
          errorMsgsListSpec (some n) subs) ∧
    (∀ (parent : Option String) (n i : String) (subs : List Folder),
        stickerLinesSpec parent (.mk n i "sticker" subs) =
          hanging_label_to_latex parent (.mk n i "sticker" subs) ++
            stickerLinesListSpec (some n) subs ∧
        hangingLinesSpec parent (.mk n i "sticker" subs) =
          hangingLinesListSpec (some n) subs ∧
        errorMsgsSpec parent (.mk n i "sticker" subs) =
          errorMsgsListSpec (some n) subs) ∧
    (∀ (n i l : String) (subs : List Folder) (p : String),
        hanging_label_to_latex none (.mk n i l subs) =
          "\\customlabel\x7b" ++ i ++ "\x7d\x7b\x7d\x7b" ++ n ++ "\x7d \n" ∧
        hanging_label_to_latex (some p) (.mk n i l subs) =
          "\\customlabel\x7b" ++ i ++ "\x7d\x7b" ++ p ++ "\x7d\x7b" ++ n ++ "\x7d \n") ∧
    (∀ (parent : Option String) (n i l : String) (subs : List Folder),
        l = "outside_folder" ∨ l = "inside_folder" ∨ l = "none" →
        hangingLinesSpec parent (.mk n i l subs) = hangingLinesListSpec (some n) subs ∧
        stickerLinesSpec parent (.mk n i l subs) = stickerLinesListSpec (some n) subs ∧
        errorMsgsSpec parent (.mk n i l subs) = errorMsgsListSpec (some n) subs) := by
  refine ⟨generateLabelsRec_decomp, ?_, ?_, ?_, ?_⟩
  · intro parent n i subs
    refine ⟨by rw [hangingLinesSpec]; simp, ?_, ?_⟩
    · rw [stickerLinesSpec]; simp
    · rw [errorMsgsSpec]; simp [LABEL_TYPES]
  · intro parent n i subs
    refine ⟨by rw [stickerLinesSpec]; simp, ?_, ?_⟩
    · rw [hangingLinesSpec]; simp
    · rw [errorMsgsSpec]; simp [LABEL_TYPES]
  · intro n i l subs p
    exact ⟨rfl, rfl⟩
  · intro parent n i l subs hl
    rcases hl with rfl | rfl | rfl <;>
      exact ⟨by rw [hangingLinesSpec]; simp,
        by rw [stickerLinesSpec]; simp,
        by rw [errorMsgsSpec]; simp [LABEL_TYPES]⟩

/-- Witness for `claim_C7_label_dispatch` at the node of the spec scenario:
id `"1"`, name `"Work"`, parent `"Documents"`, label type `hanging`. -/
theorem claim_C7_label_dispatch_witness :
    hangingLinesSpec (some "Documents") (.mk "Work" "1" "hanging" []) =
      "\\customlabel\x7b1\x7d\x7bDocuments\x7d\x7bWork\x7d \n" ++
        hangingLinesListSpec (some "Work") [] ∧
    hangingLinesSpec (some "Documents") (.mk "Work" "1" "none" []) =
      hangingLinesListSpec (some "Work") [] := by
  refine ⟨?_, ?_⟩
  · have h := (claim_C7_label_dispatch.2.1 (some "Documents") "Work" "1" []).1
    rw [h]
    rfl
  · exact (claim_C7_label_dispatch.2.2.2.2 (some "Documents") "Work" "1" "none" []
      (Or.inr (Or.inr rfl))).1

/-- Claim C8: the export mutates nothing: the state-passing translation of
the sort-enabled (or plain) export returns the folder it was given,
unchanged in every field and every child order, together with exactly the
document of the plain export. -/
theorem claim_C8_no_mutation :
    ∀ (f : Folder) (sort : Bool),
      (generateFolderTreeJsonRecTracked f sort).2 = f ∧
      (generateFolderTreeJsonRecTracked f sort).1 = generateFolderTreeJsonRec f sort := by
  intro f sort
  rw [tracked_export_eq f sort]
  exact ⟨rfl, rfl⟩

/-- Claim C9: importing a node whose `label_type` field is present but
equal to the empty string does not fail because of it and yields a node
whose label type is `"none"`; the `Folder` constructor replaces the falsy
label type with `"none"`. -/
theorem claim_C9_falsy_label :
    (∀ (n i : String) (subs : List JDoc),
        generateFolderTreeFromJsonRec (.mk (some n) (some i) (some "") (some subs)) =
          (importSubfolders subs).map (fun cs => Folder.mk n i "none" cs)) ∧
    (∀ n i : String, Folder.make n i "" = Folder.mk n i "none" []) := by
  refine ⟨?_, fun n i => rfl⟩
  intro n i subs
  rw [generateFolderTreeFromJsonRec.eq_def]
  dsimp only
  cases hs : importSubfolders subs with
  | none => rfl
  | some children => rfl

/-- Claim C10: with `ignore_non_numbered` set to false, a non-root
directory whose leading segment does not parse as an integer is kept, with
the empty string as id and the full raw name as name, and it appears in its
parent's children, so the empty id is no longer exclusive to the root. -/
theorem claim_C10_flag_false :
    (∀ (s : String) (root : Bool),
        pyIntParsable ((pySplitUnderscore s).headD "") = false →
        parseName s false root = some ("", s)) ∧
    (∀ (name : String) (entries : List FSEntry),
        pyIntParsable ((pySplitUnderscore name).headD "") = false →
        generateFolderTreeFromPathRec (.dir name entries) false false =
          some (Folder.mk name "" "none"
            (sortFolders (buildSubfolders entries false)))) ∧
    (∀ (name : String) (es rest : List FSEntry),
        pyIntParsable ((pySplitUnderscore name).headD "") = false →
        buildSubfolders (.dir name es :: rest) false =
          Folder.mk name "" "none" (sortFolders (buildSubfolders es false)) ::
            buildSubfolders rest false) := by
  have hparse : ∀ (s : String) (root : Bool),
      pyIntParsable ((pySplitUnderscore s).headD "") = false →
      parseName s false root = some ("", s) := by
    intro s root h
    have h2 : pyIntParsable ((pySplitUnderscore s).head?.getD "") = false := by
      simpa using h
    simp [parseName, h2]
  have hbuild : ∀ (name : String) (entries : List FSEntry),
      pyIntParsable ((pySplitUnderscore name).headD "") = false →
      generateFolderTreeFromPathRec (.dir name entries) false false =
        some (Folder.mk name "" "none" (sortFolders (buildSubfolders entries false))) := by
    intro name entries h
    rw [generateFolderTreeFromPathRec, hparse name false h]
    rfl
  refine ⟨hparse, hbuild, ?_⟩
  intro name es rest h
  rw [buildSubfolders, hbuild name es h]

/-- Witness for `claim_C10_flag_false` at the directory `Documents`. -/
theorem claim_C10_flag_false_witness :
    parseName "Documents" false false = some ("", "Documents") ∧
    generateFolderTreeFromPathRec (.dir "Documents" []) false false =
      some (Folder.mk "Documents" "" "none" []) := by
  refine ⟨claim_C10_flag_false.1 "Documents" false rfl, ?_⟩
  rw [claim_C10_flag_false.2.1 "Documents" [] rfl]
  rfl
